import Mathlib

/-!
Verification of the insight_compass data-collection pipeline.

Shallow embedding of the relational state and of the worker / service
operations of the repository:
  * the transactional outbox model and its publisher / cleanup tasks
    (`src/insight_compass/models/outbox.py`, `tasks/outbox_tasks.py`),
  * the Telegram account pool (`db/repositories/telegram_account_repository.py`),
  * the collection task chain (`tasks/data_collection_tasks.py`),
  * the analysis trigger and analysis worker
    (`services/analytics_service.py`, `tasks/ai_analysis_tasks.py`),
  * the dispatch service (`services/data_collection_service.py`).

Database tables are lists of rows; a transaction commit is a pure function
from state to state.  Timestamps and dates are natural numbers.  JSON blobs
that no verified operation inspects (media, forward_info, poll, sentiment,
key_topics) are kept as opaque optional strings.
-/

/-- Status enum of `OutboxTask` rows (`models/outbox.py`, `OutboxTaskStatus`). -/
inductive OutboxTaskStatus where
  | pending
  | processing
  | published
  | failed
deriving DecidableEq, Repr

/-- A row of the `outbox_tasks` table (`models/outbox.py`, `OutboxTask`).
Every enqueue in the repository passes exactly one task argument,
`post_id`, so `task_kwargs` is embedded as that single number. -/
structure OutboxRow where
  id : Nat
  task_name : String
  kwargs_post_id : Nat
  status : OutboxTaskStatus
  retry_count : Nat
  created_at : Nat
  processed_at : Option Nat
  error_message : Option String
deriving DecidableEq, Repr

/-- Constructing an `OutboxTask(task_name=..., task_kwargs=...)`: the remaining
columns take their model defaults (`status=PENDING`, `retry_count=0`,
`created_at=now()`, `processed_at`/`error_message` null). -/
def mkOutboxRow (id : Nat) (name : String) (postId : Nat) (now : Nat) : OutboxRow :=
  { id := id, task_name := name, kwargs_post_id := postId,
    status := .pending, retry_count := 0, created_at := now,
    processed_at := none, error_message := none }

/-- A row of the `channels` table (`models/telegram_data.py`, `Channel`).
Columns not read by any verified operation (about, participants_count,
verification flags, schedule, status fields) are omitted. -/
structure ChannelRow where
  id : Nat
  telegram_id : Nat
  name : Option String
  title : String
  collection_is_active : Bool
deriving DecidableEq, Repr

/-- A row of the `posts` table (`models/telegram_data.py`, `Post`). -/
structure PostRow where
  id : Nat
  channel_id : Nat
  telegram_id : Nat
  url : Option String
  reply_to_message_id : Option Nat
  grouped_id : Option Nat
  media : Option String
  forward_info : Option String
  poll : Option String
  text : Option String
  created_at : Nat
  views_count : Nat
  reactions : Option (List (String × Nat))
  forwards_count : Nat
  last_comment_telegram_id : Option Nat
  comments_last_collected_at : Option Nat
  stats_last_updated_at : Option Nat
deriving DecidableEq, Repr

/-- A validated raw post payload (`schemas/telegram_raw.py`, `RawPostModel`),
as consumed by `task_process_raw_post` after Pydantic validation and UTC
normalisation. -/
structure RawPostModel where
  telegram_id : Nat
  url : Option String
  text : Option String
  created_at : Nat
  views_count : Nat
  forwards_count : Nat
  reactions : Option (List (String × Nat))
  media : Option String
  forward_info : Option String
  poll : Option String
  reply_to_message_id : Option Nat
  grouped_id : Option Nat
deriving DecidableEq, Repr

/-- Author details of a raw comment (`schemas/telegram_raw.py`,
`AuthorDetailsModel`). -/
structure AuthorDetailsModel where
  telegram_id : Nat
  first_name : Option String
  last_name : Option String
  username : Option String
  is_bot : Bool
deriving DecidableEq, Repr

/-- A validated raw comment payload (`schemas/telegram_raw.py`,
`RawCommentModel`). -/
structure RawCommentModel where
  telegram_id : Nat
  text : Option String
  created_at : Nat
  reactions : Option (List (String × Nat))
  author_details : Option AuthorDetailsModel
  reply_to_comment_id : Option Nat
deriving DecidableEq, Repr

/-- A row of the `comments` table (`models/telegram_data.py`, `Comment`). -/
structure CommentRow where
  id : Nat
  post_id : Nat
  telegram_id : Nat
  author_id : Option Nat
  reply_to_comment_id : Option Nat
  text : Option String
  created_at : Nat
  reactions : Option (List (String × Nat))
deriving DecidableEq, Repr

/-- A row of the `telegram_users` table (`models/telegram_data.py`,
`TelegramUser`). -/
structure UserRow where
  telegram_id : Nat
  first_name : Option String
  last_name : Option String
  username : Option String
  is_bot : Bool
deriving DecidableEq, Repr

/-- A row of the `post_analysis` table (`models/ai_analysis.py`,
`PostAnalysis`); `post_id` carries a UNIQUE constraint. -/
structure AnalysisRow where
  id : Nat
  post_id : Nat
  summary : Option String
  sentiment : Option String
  key_topics : Option String
  model_used : Option String
  generated_at : Nat
deriving DecidableEq, Repr

/-- A well-formed LLM analysis result: a dict that contains a `summary` key
(`task_analyze_single_post` rejects anything else before saving). -/
structure AnalysisResult where
  summary : Option String
  sentiment : Option String
  key_topics : Option String
  model_used : Option String
deriving DecidableEq, Repr

/-- A row of the `telegram_accounts` table (`models/telegram_data.py`,
`TelegramAccount`). -/
structure TelegramAccount where
  id : Nat
  session_string : String
  is_active : Bool
  is_banned : Bool
  last_used_at : Nat
deriving DecidableEq, Repr

/-- The relational state shared by all workers.  The `next...` counters
model the autoincrement primary-key sequences. -/
structure Db where
  channels : List ChannelRow
  posts : List PostRow
  comments : List CommentRow
  users : List UserRow
  analyses : List AnalysisRow
  outbox : List OutboxRow
  accounts : List TelegramAccount
  nextPostId : Nat
  nextCommentId : Nat
  nextAnalysisId : Nat
  nextOutboxId : Nat
deriving DecidableEq, Repr

/-! ## Transactional outbox: publisher and cleanup (`tasks/outbox_tasks.py`) -/

/-- One interval of `publish_outbox_tasks`: select up to `batchSize` rows
with `FOR UPDATE SKIP LOCKED` (SQL row order is unspecified; the batch is
modelled as the first `batchSize` rows in storage order), try to hand each
to the broker (`send` reports the outcome of `app.send_task`), then delete
exactly the successfully-sent ids and commit once, in the same transaction
as the locked read.  The resulting table is the committed state. -/
def publish_outbox_tasks (table : List OutboxRow) (batchSize : Nat)
    (send : OutboxRow → Bool) : List OutboxRow :=
  let tasks_to_publish := table.take batchSize
  let published_ids := (tasks_to_publish.filter send).map OutboxRow.id
  if published_ids.isEmpty then table
  else table.filter fun r => !(published_ids.contains r.id)

/-- One run of `cleanup_old_outbox_tasks`: delete every row with
`created_at < cleanup_threshold`, with no condition on `status`. -/
def cleanup_old_outbox_tasks (table : List OutboxRow) (threshold : Nat) :
    List OutboxRow :=
  table.filter fun r => !(decide (r.created_at < threshold))

/-! ## Account pool (`db/repositories/telegram_account_repository.py`) -/

/-- The `WHERE is_active = true AND is_banned = false` filter of
`get_account_for_work`. -/
def eligibleAccount (a : TelegramAccount) : Bool :=
  a.is_active && !a.is_banned

/-- `ORDER BY last_used_at ASC LIMIT 1`: the row with minimal
`last_used_at` (ties broken by storage order, which SQL leaves
unspecified). -/
def firstMinByLastUsed : List TelegramAccount → Option TelegramAccount
  | [] => none
  | a :: rest =>
    match firstMinByLastUsed rest with
    | none => some a
    | some b => if a.last_used_at ≤ b.last_used_at then some a else some b

/-- `TelegramAccountRepository.get_account_for_work`: select the least
recently used eligible account under a row lock, stamp
`last_used_at = now()`, commit, and return the stamped account; return
`None` when no eligible account exists.  The second component is the
committed table. -/
def get_account_for_work (accounts : List TelegramAccount) (now : Nat) :
    Option TelegramAccount × List TelegramAccount :=
  match firstMinByLastUsed (accounts.filter eligibleAccount) with
  | none => (none, accounts)
  | some acc =>
    let stamped := { acc with last_used_at := now }
    (some stamped, accounts.map fun a => if a.id == acc.id then stamped else a)

/-- `TelegramAccountRepository.mark_as_banned`: set `is_banned = true` and
`is_active = false` on the given account id. -/
def mark_as_banned (accounts : List TelegramAccount) (accountId : Nat) :
    List TelegramAccount :=
  accounts.map fun a =>
    if a.id == accountId then { a with is_banned := true, is_active := false } else a

/-- The credential used by `get_service_provider` (`core/dependencies.py`):
the collector is constructed as
`TelegramCollector(session_string=settings.TELEGRAM_SESSION_STRING)`, a
static configuration value; the account pool table plays no part in the
choice.  (The call also omits the constructor's required `account_db_id`
argument, so at runtime it raises `TypeError` before any collection can
happen; this embedding charitably keeps only the credential choice.) -/
def providerSessionString (settingsSessionString : String)
    (_pool : List TelegramAccount) : String :=
  settingsSessionString

/-! ## Process-post unit (`tasks/data_collection_tasks.py`,
`task_process_raw_post`) -/

/-- The update branch of `task_process_raw_post`: refresh the mutable
fields of an existing post from the validated payload. -/
def updateExistingPost (p : PostRow) (raw : RawPostModel) : PostRow :=
  { p with views_count := raw.views_count, forwards_count := raw.forwards_count,
           reactions := raw.reactions, text := raw.text }

/-- The insert branch of `task_process_raw_post`: a fresh `Post` row built
from the validated payload. -/
def newPostRow (id channelId : Nat) (raw : RawPostModel) : PostRow :=
  { id := id, channel_id := channelId, telegram_id := raw.telegram_id,
    text := raw.text, created_at := raw.created_at,
    views_count := raw.views_count, forwards_count := raw.forwards_count,
    reactions := raw.reactions, url := raw.url,
    reply_to_message_id := raw.reply_to_message_id, grouped_id := raw.grouped_id,
    media := raw.media, forward_info := raw.forward_info, poll := raw.poll,
    last_comment_telegram_id := none, comments_last_collected_at := none,
    stats_last_updated_at := none }

/-- Celery task name enqueued for AI analysis. -/
def analyzeTaskName : String := "insight_compass.tasks.analyze_single_post"

/-- Celery task name enqueued for comment collection. -/
def collectCommentsTaskName : String := "insight_compass.tasks.collect_comments_for_post"

/-- One run of `task_process_raw_post` on an already-validated payload
(the Pydantic-validation-failure path leaves the state untouched and is
not modelled).  If a post with the same `(channel_id, telegram_id)`
exists, refresh its mutable fields and, when no `PostAnalysis` row exists
for it, enqueue one analysis outbox entry; otherwise insert the post and,
in the same transaction, enqueue one analysis and one comment-collection
outbox entry. -/
def task_process_raw_post (db : Db) (raw : RawPostModel) (dbChannelId : Nat)
    (now : Nat) : Db :=
  match db.posts.find? (fun p => p.channel_id == dbChannelId &&
                                 p.telegram_id == raw.telegram_id) with
  | some existing =>
    let posts' := db.posts.map fun p =>
      if p.id == existing.id then updateExistingPost p raw else p
    let analysisExists := db.analyses.any fun a => a.post_id == existing.id
    if analysisExists then
      { db with posts := posts' }
    else
      { db with posts := posts',
                outbox := db.outbox ++
                  [mkOutboxRow db.nextOutboxId analyzeTaskName existing.id now],
                nextOutboxId := db.nextOutboxId + 1 }
  | none =>
    let pid := db.nextPostId
    { db with
        posts := db.posts ++ [newPostRow pid dbChannelId raw],
        outbox := db.outbox ++
          [ mkOutboxRow db.nextOutboxId analyzeTaskName pid now,
            mkOutboxRow (db.nextOutboxId + 1) collectCommentsTaskName pid now ],
        nextPostId := pid + 1,
        nextOutboxId := db.nextOutboxId + 2 }

/-- Number of stored post rows for a given `(channel_id, telegram_id)`
pair. -/
def postRowCount (posts : List PostRow) (channelId tgId : Nat) : Nat :=
  (posts.filter fun p => p.channel_id == channelId && p.telegram_id == tgId).length

/-- Number of outbox entries naming the analysis task for a given post. -/
def analysisOutboxCount (outbox : List OutboxRow) (postId : Nat) : Nat :=
  (outbox.filter fun o => o.task_name == analyzeTaskName &&
                          o.kwargs_post_id == postId).length

/-! ## Comment-collection unit (`tasks/data_collection_tasks.py`,
`task_collect_comments_for_post` and `_process_comments_batch`) -/

/-- Modelled from the spec: the stream returned by the external provider
client for `TelegramCollector.get_comments_for_post` — "returns only
comments newer than `last_known_comment_id` when supplied, else full
backlog".  `remote` is the provider-side comment backlog of the post; the
Python truthiness test `if last_known_comment_id:` means both `None` and
`0` request the full backlog. -/
def get_comments_for_post (remote : List RawCommentModel)
    (lastKnown : Option Nat) : List RawCommentModel :=
  match lastKnown with
  | none => remote
  | some k => if k == 0 then remote
              else remote.filter fun c => decide (k < c.telegram_id)

/-- One step of the running maximum: the body
`current_max = latest_comment_id_in_stream or 0;
if raw_comment.telegram_id > current_max: latest = raw_comment.telegram_id`. -/
def latestStep (latest : Option Nat) (c : RawCommentModel) : Option Nat :=
  if latest.getD 0 < c.telegram_id then some c.telegram_id else latest

/-- The running maximum `latest_comment_id_in_stream`: starts at the
post's high-water mark and is replaced whenever a streamed comment id
exceeds `latest_comment_id_in_stream or 0`. -/
def latestInStream (lastKnown : Option Nat) (stream : List RawCommentModel) :
    Option Nat :=
  stream.foldl latestStep lastKnown

/-- The guard `if latest_comment_id_in_stream and
latest_comment_id_in_stream != last_known_comment_id:` on the final
update: `None` and `0` are falsy. -/
def hwmShouldUpdate (latest lastKnown : Option Nat) : Bool :=
  match latest with
  | none => false
  | some l => decide (l ≠ 0) && decide (some l ≠ lastKnown)

/-- The author upsert of `_process_comments_batch`: insert-or-update on
conflict of `telegram_id`, rewriting the name fields only when one of
them actually changed. -/
def upsertAuthor (users : List UserRow) (a : AuthorDetailsModel) : List UserRow :=
  if users.any fun u => u.telegram_id == a.telegram_id then
    users.map fun u =>
      if u.telegram_id == a.telegram_id &&
         (u.first_name != a.first_name || u.last_name != a.last_name ||
          u.username != a.username) then
        { u with first_name := a.first_name, last_name := a.last_name,
                 username := a.username, is_bot := a.is_bot }
      else u
  else
    users ++ [{ telegram_id := a.telegram_id, first_name := a.first_name,
                last_name := a.last_name, username := a.username,
                is_bot := a.is_bot }]

/-- A `Comment` row built from a raw comment in `_process_comments_batch`. -/
def mkCommentRow (id postId : Nat) (c : RawCommentModel) : CommentRow :=
  { id := id, post_id := postId, telegram_id := c.telegram_id,
    author_id := c.author_details.map AuthorDetailsModel.telegram_id,
    text := c.text, created_at := c.created_at, reactions := c.reactions,
    reply_to_comment_id := c.reply_to_comment_id }

/-- The batched saving loop of the comment worker: the code cuts the
stream into chunks of `COMMENT_BATCH_SIZE` and runs
`_process_comments_batch` (author upsert, then comment inserts, one
commit) per chunk; the completed-run state processes the same rows in the
same order, which is what this definition captures. -/
def process_comment_stream (db : Db) (stream : List RawCommentModel)
    (postId : Nat) : Db :=
  if stream.isEmpty then db
  else
    { db with
        users := (stream.filterMap RawCommentModel.author_details).foldl
                   upsertAuthor db.users,
        comments := db.comments ++
          stream.enum.map fun ic => mkCommentRow (db.nextCommentId + ic.1) postId ic.2,
        nextCommentId := db.nextCommentId + stream.length }

/-- The fetch-and-store phase of `task_collect_comments_for_post`, after
the (possible) rescan reset has committed: stream the comments newer than
the freshly-read high-water mark, save them in batches, then in a final
transaction stamp `comments_last_collected_at` and advance
`last_comment_telegram_id` when the stream produced a larger id. -/
def fetchAndStore (db : Db) (postId : Nat) (lastKnown : Option Nat)
    (remote : List RawCommentModel) (now : Nat) : Db :=
  let stream := get_comments_for_post remote lastKnown
  let latest := latestInStream lastKnown stream
  let db1 := process_comment_stream db stream postId
  { db1 with posts := db1.posts.map fun p =>
      if p.id == postId then
        { p with comments_last_collected_at := some now,
                 last_comment_telegram_id :=
                   if hwmShouldUpdate latest lastKnown then latest
                   else p.last_comment_telegram_id }
      else p }

/-- The rescan reset of `task_collect_comments_for_post`: delete all of
the post's comments and null its high-water mark, committed as its own
transaction before any fetching. -/
def rescanReset (db : Db) (postId : Nat) : Db :=
  { db with
      comments := db.comments.filter fun c => !(c.post_id == postId),
      posts := db.posts.map fun p =>
        if p.id == postId then { p with last_comment_telegram_id := none } else p }

/-- Primary-key lookup of a post. -/
def findPost (db : Db) (postId : Nat) : Option PostRow :=
  db.posts.find? fun p => p.id == postId

/-- The `selectinload(Post.channel)` join: the post's parent channel. -/
def postChannel (db : Db) (p : PostRow) : Option ChannelRow :=
  db.channels.find? fun c => c.id == p.channel_id

/-- One completed run of `task_collect_comments_for_post`.  `remote` is
the provider-side backlog for the post.  The unit exits cleanly when the
post or its channel is missing; otherwise it commits the rescan reset
(when requested) in its own transaction, re-reads the high-water mark
fresh, and runs the fetch-and-store phase. -/
def task_collect_comments_for_post (db : Db) (postId : Nat)
    (remote : List RawCommentModel) (force_full_rescan : Bool) (now : Nat) : Db :=
  match findPost db postId with
  | none => db
  | some p =>
    match postChannel db p with
    | none => db
    | some _ =>
      let db0 := if force_full_rescan then rescanReset db postId else db
      let lastKnown := (findPost db0 postId).bind PostRow.last_comment_telegram_id
      fetchAndStore db0 postId lastKnown remote now

/-- The post's high-water mark (`last_comment_telegram_id`), `none` when
the post does not exist. -/
def hwmOf (db : Db) (postId : Nat) : Option Nat :=
  (findPost db postId).bind PostRow.last_comment_telegram_id

/-- Order on high-water marks: a null mark precedes everything. -/
def hwmLe : Option Nat → Option Nat → Bool
  | none, _ => true
  | some _, none => false
  | some a, some b => decide (a ≤ b)

/-- Number of stored comment rows of a post. -/
def commentCountFor (db : Db) (postId : Nat) : Nat :=
  (db.comments.filter fun c => c.post_id == postId).length

/-! ## Analysis trigger and analysis worker
(`services/analytics_service.py`, `tasks/ai_analysis_tasks.py`) -/

/-- Errors surfaced by the service layer.  `attributeError` embeds the
Python `AttributeError` raised when a service reads an attribute the ORM
model does not define. -/
inductive ServiceError where
  | notFound
  | badRequest
  | conflict
  | attributeError
deriving DecidableEq, Repr

/-- A task handed directly to the broker with `app.send_task`. -/
structure SentTask where
  name : String
  post_id : Nat
deriving DecidableEq, Repr

/-- `AnalyticsService.trigger_post_analysis`: 404 when the post does not
exist, 409 when a `PostAnalysis` row already exists for it, otherwise the
analysis task is sent to the queue. -/
def trigger_post_analysis (db : Db) (postId : Nat) : Except ServiceError SentTask :=
  match findPost db postId with
  | none => .error .notFound
  | some post =>
    if db.analyses.any fun a => a.post_id == postId then .error .conflict
    else .ok { name := analyzeTaskName, post_id := post.id }

/-- The saving commit of `task_analyze_single_post` (step 3): insert the
artifact; a uniqueness violation on `post_id` (concurrent duplicate)
raises `IntegrityError`, which is caught and rolled back, leaving the
state unchanged. -/
def insertAnalysisCommit (db : Db) (postId : Nat) (res : AnalysisResult)
    (now : Nat) : Db :=
  if db.analyses.any fun a => a.post_id == postId then db
  else
    { db with
        analyses := db.analyses ++
          [{ id := db.nextAnalysisId, post_id := postId, summary := res.summary,
             sentiment := res.sentiment, key_topics := res.key_topics,
             model_used := res.model_used, generated_at := now }],
        nextAnalysisId := db.nextAnalysisId + 1 }

/-- One run of `task_analyze_single_post`: exit if an artifact already
exists (idempotency guard); exit if the post vanished; call the external
analyzer (`llm`, returning `none` for a malformed result, which aborts
without retry); otherwise save the artifact with the race-tolerant
commit.  The Python truthiness test `if c.text` drops both null and empty
comment texts. -/
def task_analyze_single_post (db : Db) (postId : Nat)
    (llm : String → List String → Option AnalysisResult) (now : Nat) : Db :=
  if db.analyses.any fun a => a.post_id == postId then db
  else
    match findPost db postId with
    | none => db
    | some post =>
      let postText := post.text.getD ""
      let commentsText := (db.comments.filter fun c => c.post_id == post.id).filterMap
        fun c => match c.text with
                 | some t => if t == "" then none else some t
                 | none => none
      match llm postText commentsText with
      | none => db
      | some res => insertAnalysisCommit db postId res now

/-- Number of analysis artifacts stored for a post. -/
def artifactCount (db : Db) (postId : Nat) : Nat :=
  (db.analyses.filter fun a => a.post_id == postId).length

/-! ## Dispatch service and post dispatcher
(`services/data_collection_service.py`,
`tasks/data_collection_tasks.py` `task_collect_posts_for_channel`) -/

/-- Requested collection mode (`schemas/ui_schemas.py`, `CollectionMode`). -/
inductive CollectionMode where
  | get_new
  | historical
  | initial
deriving DecidableEq, Repr

/-- A posts-collection request (`schemas/ui_schemas.py`,
`PostsCollectionRequest`). -/
structure PostsCollectionRequest where
  mode : CollectionMode
  date_from : Option Nat
  date_to : Option Nat
  limit : Option Nat
deriving DecidableEq, Repr

/-- The kwargs handed to `insight_compass.tasks.collect_posts_for_channel`. -/
structure CollectTaskKwargs where
  channel_id : Nat
  limit : Nat
  min_id : Option Nat
  offset_date : Option Nat
  historical_start_date : Option Nat
deriving DecidableEq, Repr

/-- `DataCollectionService._get_active_channel`: fetch the channel by id
(404 when absent), then evaluate `channel.is_active` — an attribute the
`Channel` model does not define (its flag is named
`collection_is_active`), so for every existing channel this line raises
`AttributeError` instead of performing the activity check. -/
def get_active_channel (db : Db) (channelId : Nat) : Except ServiceError ChannelRow :=
  match db.channels.find? (fun c => c.id == channelId) with
  | none => .error .notFound
  | some _ => .error .attributeError

/-- `SELECT telegram_id FROM posts WHERE channel_id = ... ORDER BY
telegram_id DESC LIMIT 1`. -/
def maxPostTelegramId (db : Db) (channelId : Nat) : Option Nat :=
  ((db.posts.filter fun p => p.channel_id == channelId).map
    PostRow.telegram_id).max?

/-- `DataCollectionService.trigger_posts_collection`: check the channel,
then compute the mode-specific kwargs.  `get_new` anchors on the largest
stored post id and rejects with 400 when there is none (Python truthiness:
id `0` also counts as none); `historical` requires `date_from` and sets
`offset_date = date_to or today`; `initial` sends the base kwargs.  A
successful result is the kwargs of the single task sent to the queue; an
error means no task was enqueued. -/
def trigger_posts_collection (db : Db) (channelId : Nat)
    (req : PostsCollectionRequest) (today defaultLimit : Nat) :
    Except ServiceError CollectTaskKwargs :=
  match get_active_channel db channelId with
  | .error e => .error e
  | .ok ch =>
    let base : CollectTaskKwargs :=
      { channel_id := ch.id, limit := req.limit.getD defaultLimit,
        min_id := none, offset_date := none, historical_start_date := none }
    match req.mode with
    | .get_new =>
      match maxPostTelegramId db ch.id with
      | none => .error .badRequest
      | some m =>
        if m == 0 then .error .badRequest
        else .ok { base with min_id := some m }
    | .historical =>
      match req.date_from with
      | none => .error .badRequest
      | some df =>
        .ok { base with offset_date := some (req.date_to.getD today),
                        historical_start_date := some df }
    | .initial => .ok base

/-- Modelled from the spec: the post stream of
`TelegramCollector.iter_posts`, whose pagination is performed by the
external provider client — "exactly one of `offset_date` (walk backward
from a date ...) or `min_id` (walk forward from a known id ...) is
supplied by the caller; neither supplied means most recent N".  `remote`
is the channel's provider-side backlog, newest first; `offset_date` keeps
the posts dated at or before it, `min_id` the posts with a larger id, and
`limit` caps the stream. -/
def iter_posts (remote : List RawPostModel) (limit : Option Nat)
    (minId : Option Nat) (offsetDate : Option Nat) : List RawPostModel :=
  let capped := fun (l : List RawPostModel) =>
    match limit with
    | some n => l.take n
    | none => l
  match offsetDate with
  | some d => capped (remote.filter fun p => decide (p.created_at ≤ d))
  | none =>
    match minId with
    | some m => capped (remote.filter fun p => decide (m < p.telegram_id))
    | none => capped remote

/-- One run of the dispatch unit `task_collect_posts_for_channel`,
returning the raw posts for which a `process_raw_post` task was emitted:
abort silently when the channel is missing or `collection_is_active` is
false; stream posts from the collector; in historical mode
(`historical_start_date` set) break out of the loop — before emitting —
as soon as a streamed post's date is strictly below the start date. -/
def task_collect_posts_for_channel (db : Db) (channelId : Nat)
    (limit : Option Nat) (minId : Option Nat) (offsetDate : Option Nat)
    (historicalStartDate : Option Nat) (remote : List RawPostModel) :
    List RawPostModel :=
  match db.channels.find? (fun c => c.id == channelId) with
  | none => []
  | some ch =>
    if !ch.collection_is_active then []
    else
      let stream := iter_posts remote limit minId offsetDate
      match historicalStartDate with
      | none => stream
      | some d => stream.takeWhile fun p => !(decide (p.created_at < d))

/-! ## Shared helper lemmas -/

theorem publish_mem_iff (table : List OutboxRow) (batchSize : Nat)
    (send : OutboxRow → Bool) (r : OutboxRow) :
    r ∈ publish_outbox_tasks table batchSize send ↔
      r ∈ table ∧
      ¬ r.id ∈ (((table.take batchSize).filter send).map OutboxRow.id) := by
  unfold publish_outbox_tasks
  dsimp only
  split
  next hemp =>
    rw [List.isEmpty_iff] at hemp
    simp [hemp]
  next hemp =>
    simp [List.mem_filter]

/-- C1: for every outbox row selected by the publisher, the row is deleted
if and only if its task was successfully handed to the queue — the
deletion and the locked read being one committed transaction — and every
row whose send attempt failed, as well as every row outside the locked
batch, is left in place unchanged for the next interval. -/
theorem publish_deletes_iff_sent (table : List OutboxRow) (batchSize : Nat)
    (send : OutboxRow → Bool)
    (hids : (table.map OutboxRow.id).Nodup) :
    (∀ r ∈ table.take batchSize,
        (r ∈ publish_outbox_tasks table batchSize send ↔ send r = false))
  ∧ (∀ r ∈ table, r ∉ table.take batchSize →
        r ∈ publish_outbox_tasks table batchSize send) := by
  have hinj : ∀ x ∈ table, ∀ y ∈ table, x.id = y.id → x = y :=
    fun x hx y hy => List.inj_on_of_nodup_map hids hx hy
  have hid_mem : ∀ r : OutboxRow,
      r.id ∈ (((table.take batchSize).filter send).map OutboxRow.id) ↔
      ∃ r', r' ∈ table.take batchSize ∧ send r' = true ∧ r'.id = r.id := by
    intro r
    simp [List.mem_filter, and_assoc]
  constructor
  · intro r hr
    have hrt : r ∈ table := List.take_subset batchSize table hr
    rw [publish_mem_iff]
    constructor
    · rintro ⟨-, hnot⟩
      by_contra hsend
      rw [Bool.not_eq_false] at hsend
      exact hnot ((hid_mem r).mpr ⟨r, hr, hsend, rfl⟩)
    · intro hsend
      refine ⟨hrt, fun hmem => ?_⟩
      obtain ⟨r', hr', hsend', hid⟩ := (hid_mem r).mp hmem
      have : r' = r := hinj r' (List.take_subset batchSize table hr') r hrt hid
      rw [this] at hsend'
      rw [hsend'] at hsend
      exact absurd hsend (by simp)
  · intro r hrt hrb
    rw [publish_mem_iff]
    refine ⟨hrt, fun hmem => ?_⟩
    obtain ⟨r', hr', -, hid⟩ := (hid_mem r).mp hmem
    have : r' = r := hinj r' (List.take_subset batchSize table hr') r hrt hid
    exact hrb (this ▸ hr')

/-- Sample outbox rows used by concrete witnesses. -/
def obRow1 : OutboxRow := mkOutboxRow 1 analyzeTaskName 10 100

/-- Second sample outbox row. -/
def obRow2 : OutboxRow := mkOutboxRow 2 collectCommentsTaskName 10 100

/-- Third sample outbox row. -/
def obRow3 : OutboxRow := mkOutboxRow 3 analyzeTaskName 11 100

/-- Witness for `publish_deletes_iff_sent`: a three-row table, batch size
two, where only the first row's send succeeds — the second (failed) row
stays, as does the third (outside the batch). -/
theorem publish_deletes_iff_sent_witness :
    (obRow2 ∈ publish_outbox_tasks [obRow1, obRow2, obRow3] 2 (fun r => r.id == 1) ↔
       (fun r : OutboxRow => r.id == 1) obRow2 = false)
  ∧ obRow3 ∈ publish_outbox_tasks [obRow1, obRow2, obRow3] 2 (fun r => r.id == 1) := by
  refine ⟨(publish_deletes_iff_sent [obRow1, obRow2, obRow3] 2 _ (by decide)).1
      obRow2 (by decide),
    (publish_deletes_iff_sent [obRow1, obRow2, obRow3] 2 _ (by decide)).2
      obRow3 (by decide) (by decide)⟩

theorem firstMin_mem {l : List TelegramAccount} :
    ∀ {a : TelegramAccount}, firstMinByLastUsed l = some a → a ∈ l := by
  induction l with
  | nil => intro a h; simp [firstMinByLastUsed] at h
  | cons x rest ih =>
    intro a h
    rw [firstMinByLastUsed] at h
    cases hr : firstMinByLastUsed rest with
    | none =>
      rw [hr] at h
      dsimp only at h
      cases h
      exact List.mem_cons_self _ _
    | some b =>
      rw [hr] at h
      dsimp only at h
      by_cases hle : x.last_used_at ≤ b.last_used_at
      · rw [if_pos hle] at h
        cases h
        exact List.mem_cons_self _ _
      · rw [if_neg hle] at h
        cases h
        exact List.mem_cons_of_mem _ (ih hr)

theorem firstMin_none {l : List TelegramAccount} :
    firstMinByLastUsed l = none ↔ l = [] := by
  cases l with
  | nil => simp [firstMinByLastUsed]
  | cons x rest =>
    simp only [firstMinByLastUsed]
    cases firstMinByLastUsed rest with
    | none => simp
    | some b =>
      by_cases hle : x.last_used_at ≤ b.last_used_at <;> simp [hle]

theorem firstMin_le {l : List TelegramAccount} :
    ∀ {a : TelegramAccount}, firstMinByLastUsed l = some a →
      ∀ b ∈ l, a.last_used_at ≤ b.last_used_at := by
  induction l with
  | nil => intro a h; simp [firstMinByLastUsed] at h
  | cons x rest ih =>
    intro a h
    rw [firstMinByLastUsed] at h
    cases hr : firstMinByLastUsed rest with
    | none =>
      rw [hr] at h
      dsimp only at h
      cases h
      have hnil : rest = [] := firstMin_none.mp hr
      subst hnil
      intro b hb
      simp at hb
      subst hb
      exact le_refl _
    | some c =>
      rw [hr] at h
      dsimp only at h
      intro b hb
      rcases List.mem_cons.mp hb with hb | hb
      · by_cases hle : x.last_used_at ≤ c.last_used_at
        · rw [if_pos hle] at h; cases h; rw [hb]
        · rw [if_neg hle] at h; cases h; rw [hb]; exact le_of_not_le hle
      · by_cases hle : x.last_used_at ≤ c.last_used_at
        · rw [if_pos hle] at h; cases h
          exact le_trans hle (ih hr b hb)
        · rw [if_neg hle] at h; cases h
          exact ih hr b hb

/-- C3: account acquisition returns only accounts with `is_active = true`
and `is_banned = false`; among those it selects one with minimal
`last_used_at`, stamps its `last_used_at` to the current time in the
committed table before returning, and returns `None` exactly when no
eligible account exists. -/
theorem acquire_returns_eligible_lru (accounts : List TelegramAccount) (now : Nat) :
    (∀ acc, (get_account_for_work accounts now).1 = some acc →
      acc.is_active = true ∧ acc.is_banned = false ∧ acc.last_used_at = now ∧
      acc ∈ (get_account_for_work accounts now).2 ∧
      ∃ a, a ∈ accounts ∧ a.is_active = true ∧ a.is_banned = false ∧
        a.id = acc.id ∧
        ∀ b ∈ accounts, b.is_active = true → b.is_banned = false →
          a.last_used_at ≤ b.last_used_at)
  ∧ ((get_account_for_work accounts now).1 = none ↔
      ∀ a ∈ accounts, ¬(a.is_active = true ∧ a.is_banned = false)) := by
  unfold get_account_for_work
  cases hmin : firstMinByLastUsed (accounts.filter eligibleAccount) with
  | none =>
    dsimp only
    constructor
    · intro acc h
      simp at h
    · have hnil := firstMin_none.mp hmin
      rw [List.filter_eq_nil_iff] at hnil
      simp only [eq_self_iff_true, true_iff]
      intro a ha hcontra
      exact hnil a ha (by simp [eligibleAccount, hcontra.1, hcontra.2])
  | some acc0 =>
    dsimp only
    have hmem := firstMin_mem hmin
    obtain ⟨hacc_mem, hacc_elig⟩ := List.mem_filter.mp hmem
    have hflags : acc0.is_active = true ∧ acc0.is_banned = false := by
      simpa [eligibleAccount] using hacc_elig
    constructor
    · intro acc h
      cases h
      refine ⟨hflags.1, hflags.2, rfl, ?_, acc0, hacc_mem, hflags.1, hflags.2, rfl, ?_⟩
      · have := List.mem_map_of_mem
          (fun a => if a.id == acc0.id then { acc0 with last_used_at := now } else a)
          hacc_mem
        simpa using this
      · intro b hb hb1 hb2
        exact firstMin_le hmin b
          (List.mem_filter.mpr ⟨hb, by simp [eligibleAccount, hb1, hb2]⟩)
    · constructor
      · intro h; cases h
      · intro h
        exact absurd ⟨hflags.1, hflags.2⟩ (h acc0 hacc_mem)

/-- Witness for `acquire_returns_eligible_lru`: a pool with a banned
account, an inactive account, and two eligible ones; the least recently
used eligible account (id 4) is returned, stamped. -/
theorem acquire_returns_eligible_lru_witness :
    ({ id := 4, session_string := "s4", is_active := true, is_banned := false,
       last_used_at := 50 } : TelegramAccount).is_active = true := by
  have h := (acquire_returns_eligible_lru
    [ { id := 1, session_string := "s1", is_active := true, is_banned := true,
        last_used_at := 5 },
      { id := 2, session_string := "s2", is_active := false, is_banned := false,
        last_used_at := 7 },
      { id := 3, session_string := "s3", is_active := true, is_banned := false,
        last_used_at := 90 },
      { id := 4, session_string := "s4", is_active := true, is_banned := false,
        last_used_at := 8 } ] 50).1
    { id := 4, session_string := "s4", is_active := true, is_banned := false,
      last_used_at := 50 } (by decide)
  exact h.1

/-- A minimal database with one active channel and nothing else, used by
concrete scenarios. -/
def dbOneChannel : Db :=
  { channels := [{ id := 1, telegram_id := 777, name := some "chan",
                   title := "Chan", collection_is_active := true }],
    posts := [], comments := [], users := [], analyses := [], outbox := [],
    accounts := [], nextPostId := 1, nextCommentId := 1, nextAnalysisId := 1,
    nextOutboxId := 1 }

/-- A sample validated raw post payload. -/
def rawPostSample : RawPostModel :=
  { telegram_id := 100, url := none, text := some "hello", created_at := 10,
    views_count := 5, forwards_count := 1, reactions := none, media := none,
    forward_info := none, poll := none, reply_to_message_id := none,
    grouped_id := none }

/-- C2 counterexample: on an empty database, running the process-post unit
twice with the same payload leaves one post row but TWO outbox entries
naming the analysis task for the stored post (the second run checks for
an analysis artifact, which does not exist yet, not for an existing
outbox entry), refuting "at most one analysis outbox entry". -/
theorem process_twice_not_at_most_one_entry :
    ¬ (postRowCount
         (task_process_raw_post (task_process_raw_post dbOneChannel rawPostSample 1 20)
           rawPostSample 1 21).posts 1 100 = 1 ∧
       analysisOutboxCount
         (task_process_raw_post (task_process_raw_post dbOneChannel rawPostSample 1 20)
           rawPostSample 1 21).outbox 1 ≤ 1) := by
  intro h
  have h2 : analysisOutboxCount
      (task_process_raw_post (task_process_raw_post dbOneChannel rawPostSample 1 20)
        rawPostSample 1 21).outbox 1 = 2 := by rfl
  rw [h2] at h
  omega

/-- C2 (amended): running the process-post unit twice in sequence with the
same payload leaves exactly one stored post row for the
`(channel_id, telegram_id)` pair; each run enqueues at most one analysis
outbox entry, and the second run enqueues one precisely because no
analysis artifact exists yet for the post, so the two runs leave two
analysis outbox entries for it — the duplicate being absorbed by the
analysis unit's idempotency guard. -/
theorem process_twice_one_post_row (db : Db) (raw : RawPostModel)
    (chId now1 now2 : Nat)
    (hnopost : ∀ p ∈ db.posts,
      ¬(p.channel_id = chId ∧ p.telegram_id = raw.telegram_id))
    (hfreshOutbox : ∀ o ∈ db.outbox, o.kwargs_post_id ≠ db.nextPostId)
    (hfreshAnalysis : ∀ a ∈ db.analyses, a.post_id ≠ db.nextPostId) :
    postRowCount
      (task_process_raw_post (task_process_raw_post db raw chId now1)
        raw chId now2).posts chId raw.telegram_id = 1
  ∧ analysisOutboxCount
      (task_process_raw_post (task_process_raw_post db raw chId now1)
        raw chId now2).outbox db.nextPostId = 2 := by
  have hfind1 : db.posts.find?
      (fun p => p.channel_id == chId && p.telegram_id == raw.telegram_id) = none := by
    rw [List.find?_eq_none]
    intro p hp
    simp only [Bool.and_eq_true, beq_iff_eq, not_and]
    intro h1 h2
    exact hnopost p hp ⟨h1, h2⟩
  have hrun1 : task_process_raw_post db raw chId now1 =
      { db with
          posts := db.posts ++ [newPostRow db.nextPostId chId raw],
          outbox := db.outbox ++
            [ mkOutboxRow db.nextOutboxId analyzeTaskName db.nextPostId now1,
              mkOutboxRow (db.nextOutboxId + 1) collectCommentsTaskName
                db.nextPostId now1 ],
          nextPostId := db.nextPostId + 1,
          nextOutboxId := db.nextOutboxId + 2 } := by
    unfold task_process_raw_post
    rw [hfind1]
  have hprednew : ((newPostRow db.nextPostId chId raw).channel_id == chId &&
      (newPostRow db.nextPostId chId raw).telegram_id == raw.telegram_id) = true := by
    simp [newPostRow]
  have hfind2 : (db.posts ++ [newPostRow db.nextPostId chId raw]).find?
      (fun p => p.channel_id == chId && p.telegram_id == raw.telegram_id) =
      some (newPostRow db.nextPostId chId raw) := by
    rw [List.find?_append, hfind1]
    simp [List.find?_cons, hprednew]
  have hany : db.analyses.any
      (fun a => a.post_id == (newPostRow db.nextPostId chId raw).id) = false := by
    rw [List.any_eq_false]
    intro a ha
    simp [newPostRow, hfreshAnalysis a ha]
  have hrun2 : task_process_raw_post (task_process_raw_post db raw chId now1)
      raw chId now2 =
      { db with
          posts := (db.posts ++ [newPostRow db.nextPostId chId raw]).map
            (fun p => if p.id == (newPostRow db.nextPostId chId raw).id then
                        updateExistingPost p raw else p),
          outbox := (db.outbox ++
            [ mkOutboxRow db.nextOutboxId analyzeTaskName db.nextPostId now1,
              mkOutboxRow (db.nextOutboxId + 1) collectCommentsTaskName
                db.nextPostId now1 ]) ++
            [ mkOutboxRow (db.nextOutboxId + 2) analyzeTaskName db.nextPostId now2 ],
          nextPostId := db.nextPostId + 1,
          nextOutboxId := db.nextOutboxId + 3 } := by
    rw [hrun1]
    unfold task_process_raw_post
    dsimp only
    rw [hfind2]
    dsimp only
    rw [hany]
    dsimp only [newPostRow]
    rfl
  refine ⟨?_, ?_⟩
  · rw [hrun2]
    unfold postRowCount
    dsimp only
    rw [List.filter_map]
    have hcongr : ∀ p : PostRow,
        ((fun q : PostRow => q.channel_id == chId && q.telegram_id == raw.telegram_id) ∘
          (fun q => if q.id == (newPostRow db.nextPostId chId raw).id then
                      updateExistingPost q raw else q)) p =
        (fun q : PostRow => q.channel_id == chId && q.telegram_id == raw.telegram_id) p := by
      intro p
      by_cases h : p.id = (newPostRow db.nextPostId chId raw).id <;>
        simp [h, updateExistingPost]
    rw [List.filter_congr (fun p _ => hcongr p)]
    rw [List.filter_append]
    have hnil : db.posts.filter
        (fun q : PostRow => q.channel_id == chId && q.telegram_id == raw.telegram_id) = [] := by
      rw [List.filter_eq_nil_iff]
      intro p hp
      simp only [Bool.and_eq_true, beq_iff_eq, not_and]
      intro h1 h2
      exact hnopost p hp ⟨h1, h2⟩
    rw [hnil]
    simp [hprednew]
  · rw [hrun2]
    unfold analysisOutboxCount
    dsimp only
    rw [List.filter_append, List.filter_append]
    have hnil : db.outbox.filter
        (fun o => o.task_name == analyzeTaskName &&
                  o.kwargs_post_id == db.nextPostId) = [] := by
      rw [List.filter_eq_nil_iff]
      intro o ho
      simp [hfreshOutbox o ho]
    rw [hnil]
    simp [mkOutboxRow, analyzeTaskName, collectCommentsTaskName]

/-- Witness for `process_twice_one_post_row`: the concrete empty-database
scenario, where the double run stores exactly one post row. -/
theorem process_twice_one_post_row_witness :
    postRowCount
      (task_process_raw_post (task_process_raw_post dbOneChannel rawPostSample 1 20)
        rawPostSample 1 21).posts 1 100 = 1 ∧
    analysisOutboxCount
      (task_process_raw_post (task_process_raw_post dbOneChannel rawPostSample 1 20)
        rawPostSample 1 21).outbox 1 = 2 :=
  process_twice_one_post_row dbOneChannel rawPostSample 1 20 21
    (by decide) (by decide) (by decide)

/-- C6: at most one analysis artifact per post — an analysis request on a
post that already has an artifact is rejected with the conflict error and
sends nothing; the analysis unit's idempotency guard exits with the state
unchanged; and the artifact-saving commit treats a uniqueness violation
(an artifact concurrently present at commit time) as a benign no-op, so
every saving commit preserves "at most one artifact per post". -/
theorem at_most_one_artifact (db : Db) (postId : Nat) (p : PostRow)
    (res : AnalysisResult) (llm : String → List String → Option AnalysisResult)
    (now : Nat)
    (hp : findPost db postId = some p)
    (hart : (db.analyses.any fun a => a.post_id == postId) = true) :
    trigger_post_analysis db postId = .error .conflict
  ∧ task_analyze_single_post db postId llm now = db
  ∧ (∀ db' : Db, (db'.analyses.any fun a => a.post_id == postId) = true →
      insertAnalysisCommit db' postId res now = db')
  ∧ (∀ db' : Db, artifactCount db' postId ≤ 1 →
      artifactCount (insertAnalysisCommit db' postId res now) postId ≤ 1) := by
  refine ⟨?_, ?_, ?_, ?_⟩
  · unfold trigger_post_analysis
    rw [hp]
    simp [hart]
  · unfold task_analyze_single_post
    simp [hart]
  · intro db' h
    unfold insertAnalysisCommit
    simp [h]
  · intro db' h
    unfold insertAnalysisCommit
    by_cases hb : (db'.analyses.any fun a => a.post_id == postId) = true
    · simpa [hb] using h
    · rw [if_neg hb]
      have hnone : ∀ a ∈ db'.analyses, ¬(a.post_id == postId) = true :=
        List.any_eq_false.mp (Bool.eq_false_iff.mpr hb)
      unfold artifactCount at *
      dsimp only
      rw [List.filter_append, List.filter_eq_nil_iff.mpr hnone]
      simp

/-- A concrete database holding one post (id 1) and one analysis artifact
for it. -/
def dbWithArtifact : Db :=
  { dbOneChannel with
      posts := [newPostRow 1 1 rawPostSample],
      analyses := [{ id := 1, post_id := 1, summary := some "s",
                     sentiment := none, key_topics := none,
                     model_used := some "m", generated_at := 5 }],
      nextPostId := 2, nextAnalysisId := 2 }

/-- Witness for `at_most_one_artifact`: on `dbWithArtifact`, the analysis
request for post 1 is rejected with the conflict error. -/
theorem at_most_one_artifact_witness :
    trigger_post_analysis dbWithArtifact 1 = .error .conflict ∧
    task_analyze_single_post dbWithArtifact 1 (fun _ _ => none) 9 = dbWithArtifact := by
  have h := at_most_one_artifact dbWithArtifact 1 (newPostRow 1 1 rawPostSample)
    { summary := none, sentiment := none, key_topics := none, model_used := none }
    (fun _ _ => none) 9 (by decide) (by decide)
  exact ⟨h.1, h.2.1⟩

/-- C8 (code behavior at the failing input): a `mode=new` dispatch on the
existing, active channel 1 of a database with no stored posts fails with
the `AttributeError` raised by `_get_active_channel` reading
`channel.is_active` (an attribute the `Channel` model does not define) —
not with the claimed bad-request "no posts yet" rejection, which is
unreachable; no collection task is enqueued either way. -/
theorem dispatch_new_no_posts_attribute_error :
    trigger_posts_collection dbOneChannel 1
      { mode := .get_new, date_from := none, date_to := none, limit := none }
      30 100 = .error .attributeError := rfl

/-- C9 (code behavior): on a credential-fatal error the collector does
mark the offending account banned and deactivated in the pool
(`mark_as_banned`), but the retried unit's credential is the static
`settings.TELEGRAM_SESSION_STRING` — `get_service_provider` never calls
the pool's `get_account_for_work` — so the credential after the ban is
identical to the credential before it, not a fresh pool acquisition. -/
theorem banned_retry_same_credential (pool : List TelegramAccount)
    (accId : Nat) (s : String) :
    (∀ a ∈ mark_as_banned pool accId, a.id = accId →
        a.is_banned = true ∧ a.is_active = false)
  ∧ providerSessionString s (mark_as_banned pool accId) =
      providerSessionString s pool := by
  constructor
  · intro a ha hid
    unfold mark_as_banned at ha
    obtain ⟨b, hb, rfl⟩ := List.mem_map.mp ha
    by_cases h : b.id = accId
    · simp [h]
    · rw [if_neg (by simpa using h)] at hid ⊢
      exact absurd hid h
  · rfl

/-- Witness for `banned_retry_same_credential`: a one-account pool whose
only credential is the settings credential; after the ban the provider
still uses the same string. -/
theorem banned_retry_same_credential_witness :
    providerSessionString "settings-session"
      (mark_as_banned
        [{ id := 1, session_string := "settings-session", is_active := true,
           is_banned := false, last_used_at := 3 }] 1) =
    providerSessionString "settings-session"
      [{ id := 1, session_string := "settings-session", is_active := true,
         is_banned := false, last_used_at := 3 }] :=
  (banned_retry_same_credential
    [{ id := 1, session_string := "settings-session", is_active := true,
       is_banned := false, last_used_at := 3 }] 1 "settings-session").2

theorem mem_of_mem_takeWhile {α : Type} (p : α → Bool) (l : List α) :
    ∀ a ∈ l.takeWhile p, a ∈ l := by
  induction l with
  | nil => simp
  | cons x t ih =>
    intro a ha
    by_cases hx : p x = true
    · rw [List.takeWhile_cons_of_pos hx] at ha
      rcases List.mem_cons.mp ha with h | h
      · exact h ▸ List.mem_cons_self _ _
      · exact List.mem_cons_of_mem _ (ih a h)
    · rw [List.takeWhile_cons_of_neg hx] at ha
      simp at ha

theorem length_takeWhile_le_len {α : Type} (p : α → Bool) (l : List α) :
    (l.takeWhile p).length ≤ l.length := by
  induction l with
  | nil => simp
  | cons x t ih =>
    by_cases hx : p x = true
    · rw [List.takeWhile_cons_of_pos hx]
      simpa using ih
    · rw [List.takeWhile_cons_of_neg hx]
      simp

theorem takeWhile_append_stop {α : Type} (p : α → Bool) (q : α) (l₂ : List α)
    (hq : p q = false) :
    ∀ l₁ : List α, (∀ r ∈ l₁, p r = true) →
      (l₁ ++ q :: l₂).takeWhile p = l₁ := by
  intro l₁
  induction l₁ with
  | nil =>
    intro _
    rw [List.nil_append]
    exact List.takeWhile_cons_of_neg (by simp [hq])
  | cons x t ih =>
    intro h
    rw [List.cons_append,
        List.takeWhile_cons_of_pos (h x (List.mem_cons_self _ _)),
        ih fun r hr => h r (List.mem_cons_of_mem _ hr)]

theorem takeWhile_append_keep {α : Type} (p : α → Bool) (q : α) (l₂ : List α)
    (hq : p q = true) :
    ∀ l₁ : List α, (∀ r ∈ l₁, p r = true) →
      q ∈ (l₁ ++ q :: l₂).takeWhile p := by
  intro l₁
  induction l₁ with
  | nil =>
    intro _
    rw [List.nil_append, List.takeWhile_cons_of_pos hq]
    exact List.mem_cons_self _ _
  | cons x t ih =>
    intro h
    rw [List.cons_append,
        List.takeWhile_cons_of_pos (h x (List.mem_cons_self _ _))]
    exact List.mem_cons_of_mem _ (ih fun r hr => h r (List.mem_cons_of_mem _ hr))

/-- C7: a historical-mode dispatch (service-computed kwargs
`offset_date = date_to`, `historical_start_date = date_from`, a limit)
emits process-post units only for posts dated in the inclusive interval
`[date_from, date_to]`, capped at the limit; iteration stops — before
emitting — at the first streamed post whose date strictly precedes
`date_from`, and a streamed post dated exactly `date_from` is kept. -/
theorem historical_dispatch_range (db : Db) (chId limit dateFrom dateTo : Nat)
    (remote : List RawPostModel) (ch : ChannelRow)
    (hch : db.channels.find? (fun c => c.id == chId) = some ch)
    (hact : ch.collection_is_active = true) :
    (∀ p ∈ task_collect_posts_for_channel db chId (some limit) none (some dateTo)
        (some dateFrom) remote,
      dateFrom ≤ p.created_at ∧ p.created_at ≤ dateTo)
  ∧ (task_collect_posts_for_channel db chId (some limit) none (some dateTo)
        (some dateFrom) remote).length ≤ limit
  ∧ (∀ l₁ (q : RawPostModel) l₂,
        iter_posts remote (some limit) none (some dateTo) = l₁ ++ q :: l₂ →
        (∀ r ∈ l₁, dateFrom ≤ r.created_at) → q.created_at < dateFrom →
        task_collect_posts_for_channel db chId (some limit) none (some dateTo)
          (some dateFrom) remote = l₁)
  ∧ (∀ l₁ (q : RawPostModel) l₂,
        iter_posts remote (some limit) none (some dateTo) = l₁ ++ q :: l₂ →
        (∀ r ∈ l₁, dateFrom ≤ r.created_at) → dateFrom ≤ q.created_at →
        q ∈ task_collect_posts_for_channel db chId (some limit) none (some dateTo)
          (some dateFrom) remote) := by
  have htask : task_collect_posts_for_channel db chId (some limit) none
      (some dateTo) (some dateFrom) remote =
      (iter_posts remote (some limit) none (some dateTo)).takeWhile
        (fun p => !(decide (p.created_at < dateFrom))) := by
    unfold task_collect_posts_for_channel
    rw [hch]
    simp [hact]
  have hstream : iter_posts remote (some limit) none (some dateTo) =
      (remote.filter fun p => decide (p.created_at ≤ dateTo)).take limit := rfl
  refine ⟨?_, ?_, ?_, ?_⟩
  · intro p hp
    rw [htask] at hp
    have hpred := List.mem_takeWhile_imp hp
    have hmem := mem_of_mem_takeWhile _ _ p hp
    rw [hstream] at hmem
    have hmem' := List.take_subset _ _ hmem
    have hup := (List.mem_filter.mp hmem').2
    simp only [Bool.not_eq_true', decide_eq_false_iff_not, Nat.not_lt] at hpred
    simp only [decide_eq_true_eq] at hup
    exact ⟨hpred, hup⟩
  · rw [htask]
    calc ((iter_posts remote (some limit) none (some dateTo)).takeWhile
            (fun p => !(decide (p.created_at < dateFrom)))).length
        ≤ (iter_posts remote (some limit) none (some dateTo)).length :=
          length_takeWhile_le_len _ _
      _ ≤ limit := by rw [hstream]; exact List.length_take_le _ _
  · intro l₁ q l₂ hsplit hkeep hstop
    rw [htask, hsplit]
    exact takeWhile_append_stop _ q l₂ (by simp [hstop]) l₁
      (fun r hr => by simp [Nat.not_lt.mpr (hkeep r hr)])
  · intro l₁ q l₂ hsplit hkeep hq
    rw [htask, hsplit]
    exact takeWhile_append_keep _ q l₂ (by simp [Nat.not_lt.mpr hq]) l₁
      (fun r hr => by simp [Nat.not_lt.mpr (hkeep r hr)])

/-- A provider-side post backlog, newest first, spanning dates on both
sides of the historical window. -/
def remotePostsSample : List RawPostModel :=
  [ { rawPostSample with telegram_id := 5, created_at := 40 },
    { rawPostSample with telegram_id := 4, created_at := 30 },
    { rawPostSample with telegram_id := 3, created_at := 20 },
    { rawPostSample with telegram_id := 2, created_at := 5 } ]

/-- Witness for `historical_dispatch_range`: on the concrete backlog the
emitted units respect the window and the cap. -/
theorem historical_dispatch_range_witness :
    (task_collect_posts_for_channel dbOneChannel 1 (some 10) none (some 35)
      (some 10) remotePostsSample).length ≤ 10 :=
  (historical_dispatch_range dbOneChannel 1 10 10 35 remotePostsSample
    { id := 1, telegram_id := 777, name := some "chan", title := "Chan",
      collection_is_active := true } (by decide) rfl).2.1

theorem process_outbox_shape (db : Db) (raw : RawPostModel) (chId now : Nat) :
    ∃ tail, (task_process_raw_post db raw chId now).outbox = db.outbox ++ tail ∧
      ∀ r ∈ tail, r.status = .pending ∧ r.retry_count = 0 ∧
        r.processed_at = none ∧ r.error_message = none := by
  unfold task_process_raw_post
  cases db.posts.find? (fun p => p.channel_id == chId &&
      p.telegram_id == raw.telegram_id) with
  | none =>
    refine ⟨[mkOutboxRow db.nextOutboxId analyzeTaskName db.nextPostId now,
             mkOutboxRow (db.nextOutboxId + 1) collectCommentsTaskName
               db.nextPostId now], rfl, ?_⟩
    intro r hr
    simp only [List.mem_cons, List.not_mem_nil, or_false] at hr
    rcases hr with rfl | rfl <;> exact ⟨rfl, rfl, rfl, rfl⟩
  | some ex =>
    dsimp only
    by_cases hany : (db.analyses.any fun a => a.post_id == ex.id) = true
    · rw [if_pos hany]
      exact ⟨[], by simp, by simp⟩
    · rw [if_neg hany]
      refine ⟨[mkOutboxRow db.nextOutboxId analyzeTaskName ex.id now], rfl, ?_⟩
      intro r hr
      simp only [List.mem_cons, List.not_mem_nil, or_false] at hr
      subst hr
      exact ⟨rfl, rfl, rfl, rfl⟩

theorem process_comment_stream_outbox (db : Db) (stream : List RawCommentModel)
    (postId : Nat) :
    (process_comment_stream db stream postId).outbox = db.outbox := by
  unfold process_comment_stream
  split <;> rfl

theorem fetchAndStore_outbox (db : Db) (postId : Nat) (lastKnown : Option Nat)
    (remote : List RawCommentModel) (now : Nat) :
    (fetchAndStore db postId lastKnown remote now).outbox = db.outbox := by
  unfold fetchAndStore
  exact process_comment_stream_outbox db _ postId

theorem collect_comments_outbox (db : Db) (postId : Nat)
    (remote : List RawCommentModel) (rescan : Bool) (now : Nat) :
    (task_collect_comments_for_post db postId remote rescan now).outbox =
      db.outbox := by
  unfold task_collect_comments_for_post
  cases findPost db postId with
  | none => rfl
  | some p =>
    dsimp only
    cases postChannel db p with
    | none => rfl
    | some ch =>
      dsimp only
      rw [fetchAndStore_outbox]
      cases rescan <;> rfl

theorem insertAnalysisCommit_outbox (db : Db) (postId : Nat)
    (res : AnalysisResult) (now : Nat) :
    (insertAnalysisCommit db postId res now).outbox = db.outbox := by
  unfold insertAnalysisCommit
  split <;> rfl

theorem analyze_outbox (db : Db) (postId : Nat)
    (llm : String → List String → Option AnalysisResult) (now : Nat) :
    (task_analyze_single_post db postId llm now).outbox = db.outbox := by
  unfold task_analyze_single_post
  split
  · rfl
  · cases findPost db postId with
    | none => rfl
    | some post =>
      dsimp only
      cases llm (post.text.getD "")
          ((db.comments.filter fun c => c.post_id == post.id).filterMap
            fun c => match c.text with
                     | some t => if t == "" then none else some t
                     | none => none) with
      | none => rfl
      | some res => exact insertAnalysisCommit_outbox db postId res now

/-- C10: outbox rows keep their initial column values for their entire
lifetime — every row ever inserted starts with `status = PENDING`,
`retry_count = 0`, `processed_at = NULL`, `error_message = NULL`; the
publisher and the cleanup only delete rows (every surviving row is a row
of the input table, unchanged); the cleanup deletes by age alone,
ignoring status; and no other operation touches the table. -/
theorem outbox_rows_immutable (db : Db) (raw : RawPostModel) (chId now : Nat)
    (table : List OutboxRow) (batchSize threshold : Nat) (send : OutboxRow → Bool)
    (postId : Nat) (remote : List RawCommentModel) (rescan : Bool)
    (llm : String → List String → Option AnalysisResult) :
    (∀ r ∈ (task_process_raw_post db raw chId now).outbox,
        r ∈ db.outbox ∨ (r.status = .pending ∧ r.retry_count = 0 ∧
          r.processed_at = none ∧ r.error_message = none))
  ∧ (∀ r ∈ publish_outbox_tasks table batchSize send, r ∈ table)
  ∧ (∀ r ∈ cleanup_old_outbox_tasks table threshold,
        r ∈ table ∧ ¬ r.created_at < threshold)
  ∧ (∀ r ∈ table, r.created_at < threshold →
        r ∉ cleanup_old_outbox_tasks table threshold)
  ∧ (task_collect_comments_for_post db postId remote rescan now).outbox = db.outbox
  ∧ (task_analyze_single_post db postId llm now).outbox = db.outbox := by
  refine ⟨?_, ?_, ?_, ?_, collect_comments_outbox db postId remote rescan now,
    analyze_outbox db postId llm now⟩
  · intro r hr
    obtain ⟨tail, heq, htail⟩ := process_outbox_shape db raw chId now
    rw [heq] at hr
    rcases List.mem_append.mp hr with h | h
    · exact Or.inl h
    · exact Or.inr (htail r h)
  · intro r hr
    exact ((publish_mem_iff table batchSize send r).mp hr).1
  · intro r hr
    obtain ⟨hm, hp⟩ := List.mem_filter.mp hr
    simp only [Bool.not_eq_true', decide_eq_false_iff_not] at hp
    exact ⟨hm, hp⟩
  · intro r hr hold hmem
    obtain ⟨-, hp⟩ := List.mem_filter.mp hmem
    simp only [Bool.not_eq_true', decide_eq_false_iff_not] at hp
    exact hp hold

/-- Witness for `outbox_rows_immutable`: concrete instantiation on the
sample rows; the cleanup keeps exactly the young row. -/
theorem outbox_rows_immutable_witness :
    (task_collect_comments_for_post dbOneChannel 1 [] false 20).outbox =
      dbOneChannel.outbox :=
  (outbox_rows_immutable dbOneChannel rawPostSample 1 20 [obRow1] 5 50
    (fun _ => true) 1 [] false (fun _ _ => none)).2.2.2.2.1

/-! ## High-water-mark order lemmas -/

theorem hwmLe_refl (a : Option Nat) : hwmLe a a = true := by
  cases a <;> simp [hwmLe]

theorem hwmLe_trans {a b c : Option Nat} (h1 : hwmLe a b = true)
    (h2 : hwmLe b c = true) : hwmLe a c = true := by
  cases a <;> cases b <;> cases c <;> simp [hwmLe] at * <;> omega

theorem hwmLe_getD {a b : Option Nat} (h : hwmLe a b = true) :
    a.getD 0 ≤ b.getD 0 := by
  cases a <;> cases b <;> simp [hwmLe] at * <;> omega

theorem latestInStream_cons (lk : Option Nat) (c : RawCommentModel)
    (t : List RawCommentModel) :
    latestInStream lk (c :: t) = latestInStream (latestStep lk c) t := rfl

theorem hwmLe_latestStep (lk : Option Nat) (c : RawCommentModel) :
    hwmLe lk (latestStep lk c) = true := by
  unfold latestStep
  split
  · cases lk with
    | none => simp [hwmLe]
    | some k =>
      next h =>
      simp only [Option.getD_some] at h
      simpa [hwmLe] using Nat.le_of_lt h
  · exact hwmLe_refl lk

theorem latest_ge (s : List RawCommentModel) :
    ∀ lk, hwmLe lk (latestInStream lk s) = true := by
  induction s with
  | nil => intro lk; exact hwmLe_refl lk
  | cons c t ih =>
    intro lk
    rw [latestInStream_cons]
    exact hwmLe_trans (hwmLe_latestStep lk c) (ih _)

theorem latest_ub (s : List RawCommentModel) :
    ∀ lk, ∀ c ∈ s, c.telegram_id ≤ (latestInStream lk s).getD 0 := by
  induction s with
  | nil => simp
  | cons x t ih =>
    intro lk c hc
    rw [latestInStream_cons]
    rcases List.mem_cons.mp hc with rfl | hct
    · have h1 : c.telegram_id ≤ (latestStep lk c).getD 0 := by
        unfold latestStep
        split
        · simp
        · next h => exact le_trans (Nat.le_of_not_lt h) (le_refl _)
      exact le_trans h1 (hwmLe_getD (latest_ge t _))
    · exact ih _ c hct

theorem latest_isSome (s : List RawCommentModel) :
    ∀ k : Nat, ∃ m, latestInStream (some k) s = some m := by
  induction s with
  | nil => intro k; exact ⟨k, rfl⟩
  | cons c t ih =>
    intro k
    rw [latestInStream_cons]
    unfold latestStep
    split
    · exact ih c.telegram_id
    · exact ih k

/-- The high-water mark a completed non-rescan run leaves on the post,
as a function of the mark read at the start (`lk`) and the provider
backlog: the stream maximum when the final guard fires, the old mark
otherwise. -/
def runHwm (lk : Option Nat) (remote : List RawCommentModel) : Option Nat :=
  if hwmShouldUpdate (latestInStream lk (get_comments_for_post remote lk)) lk
  then latestInStream lk (get_comments_for_post remote lk)
  else lk

theorem get_comments_some (remote : List RawCommentModel) (k : Nat) :
    get_comments_for_post remote (some k) =
      if k == 0 then remote
      else remote.filter fun c => decide (k < c.telegram_id) := rfl

theorem runHwm_mono (lk : Option Nat) (remote : List RawCommentModel) :
    hwmLe lk (runHwm lk remote) = true := by
  unfold runHwm
  split
  · exact latest_ge _ lk
  · exact hwmLe_refl lk

theorem second_fetch_empty (lk : Option Nat) (remote : List RawCommentModel)
    (hpos : ∀ c ∈ remote, 1 ≤ c.telegram_id) :
    get_comments_for_post remote (runHwm lk remote) = [] := by
  cases lk with
  | none =>
    cases remote with
    | nil => rfl
    | cons c t =>
      have hstream : get_comments_for_post (c :: t) (none : Option Nat) = c :: t := rfl
      have hstep : latestStep none c = some c.telegram_id := by
        unfold latestStep
        rw [if_pos]
        simp only [Option.getD_none]
        exact hpos c (List.mem_cons_self _ _)
      obtain ⟨m, hm⟩ : ∃ m, latestInStream (none : Option Nat) (c :: t) = some m := by
        rw [latestInStream_cons, hstep]
        exact latest_isSome t c.telegram_id
      have hub : ∀ x ∈ c :: t, x.telegram_id ≤ m := by
        intro x hx
        have := latest_ub (c :: t) none x hx
        rw [hm] at this
        simpa using this
      have hm1 : 1 ≤ m :=
        le_trans (hpos c (List.mem_cons_self _ _)) (hub c (List.mem_cons_self _ _))
      have hrun : runHwm none (c :: t) = some m := by
        unfold runHwm
        rw [hstream, hm]
        rw [if_pos]
        unfold hwmShouldUpdate
        simp only [Bool.and_eq_true, decide_eq_true_eq]
        exact ⟨by omega, by simp⟩
      rw [hrun, get_comments_some]
      rw [if_neg (by simp; omega)]
      rw [List.filter_eq_nil_iff]
      intro x hx
      simp only [decide_eq_true_eq, Nat.not_lt]
      exact hub x hx
  | some k =>
    obtain ⟨m, hm⟩ : ∃ m,
        latestInStream (some k) (get_comments_for_post remote (some k)) = some m :=
      latest_isSome _ k
    have hkm : k ≤ m := by
      have := latest_ge (get_comments_for_post remote (some k)) (some k)
      rw [hm] at this
      simpa [hwmLe] using this
    have hub : ∀ x ∈ get_comments_for_post remote (some k), x.telegram_id ≤ m := by
      intro x hx
      have := latest_ub _ (some k) x hx
      rw [hm] at this
      simpa using this
    by_cases hk0 : k = 0
    · subst hk0
      have hstream : get_comments_for_post remote (some 0) = remote := rfl
      rw [hstream] at hm hub
      cases remote with
      | nil =>
        have hm0 : m = 0 := by
          have : latestInStream (some 0) ([] : List RawCommentModel) = some 0 := rfl
          rw [this] at hm
          cases hm
          rfl
        have hrun : runHwm (some 0) ([] : List RawCommentModel) = some 0 := by
          unfold runHwm
          rw [if_neg]
          unfold hwmShouldUpdate
          have : latestInStream (some 0) (get_comments_for_post [] (some 0)) = some 0 := rfl
          rw [this]
          simp
        rw [hrun]
        rfl
      | cons c t =>
        have hm1 : 1 ≤ m :=
          le_trans (hpos c (List.mem_cons_self _ _)) (hub c (List.mem_cons_self _ _))
        have hrun : runHwm (some 0) (c :: t) = some m := by
          unfold runHwm
          have hstream' : get_comments_for_post (c :: t) (some 0) = c :: t := rfl
          rw [hstream', hm, if_pos]
          unfold hwmShouldUpdate
          simp only [Bool.and_eq_true, decide_eq_true_eq]
          exact ⟨by omega, by simp; omega⟩
        rw [hrun, get_comments_some]
        rw [if_neg (by simp; omega)]
        rw [List.filter_eq_nil_iff]
        intro x hx
        simp only [decide_eq_true_eq, Nat.not_lt]
        exact hub x hx
    · have hm1 : 1 ≤ m := le_trans (Nat.one_le_iff_ne_zero.mpr hk0) hkm
      have hstream : get_comments_for_post remote (some k) =
          remote.filter fun c => decide (k < c.telegram_id) := by
        rw [get_comments_some, if_neg (by simpa using hk0)]
      have hruncase : runHwm (some k) remote = some m ∨
          (runHwm (some k) remote = some k ∧ m = k) := by
        unfold runHwm
        rw [hm]
        unfold hwmShouldUpdate
        by_cases hmk : m = k
        · right
          rw [if_neg]
          · exact ⟨rfl, hmk⟩
          · simp [hmk]
        · left
          rw [if_pos]
          simp only [Bool.and_eq_true, decide_eq_true_eq]
          exact ⟨by omega, by simp [hmk]⟩
      have hubm : ∀ x ∈ remote, ¬ m < x.telegram_id := by
        intro x hx
        by_cases hxk : k < x.telegram_id
        · have hxs : x ∈ get_comments_for_post remote (some k) := by
            rw [hstream]
            exact List.mem_filter.mpr ⟨hx, by simpa using hxk⟩
          exact Nat.not_lt.mpr (hub x hxs)
        · exact Nat.not_lt.mpr (le_trans (Nat.le_of_not_lt hxk) hkm)
      rcases hruncase with hrun | ⟨hrun, hmk⟩
      · rw [hrun, get_comments_some]
        rw [if_neg (by simp; omega)]
        rw [List.filter_eq_nil_iff]
        intro x hx
        simpa using hubm x hx
      · rw [hrun, get_comments_some]
        rw [if_neg (by simpa using hk0)]
        rw [List.filter_eq_nil_iff]
        intro x hx
        have := hubm x hx
        rw [hmk] at this
        simpa using this

theorem find?_map_idpres (l : List PostRow) (f : PostRow → PostRow) (pid : Nat)
    (hf : ∀ p, (f p).id = p.id) :
    (l.map f).find? (fun p => p.id == pid) =
      (l.find? (fun p => p.id == pid)).map f := by
  induction l with
  | nil => rfl
  | cons x t ih =>
    rw [List.map_cons]
    by_cases hx : (x.id == pid) = true
    · have h1 : (f x :: t.map f).find? (fun p => p.id == pid) = some (f x) :=
        List.find?_cons_of_pos _ (by
          show ((f x).id == pid) = true
          rw [hf]; exact hx)
      have h2 : (x :: t).find? (fun p => p.id == pid) = some x :=
        List.find?_cons_of_pos _ hx
      rw [h1, h2]
      rfl
    · have h1 : (f x :: t.map f).find? (fun p => p.id == pid) =
          (t.map f).find? (fun p => p.id == pid) :=
        List.find?_cons_of_neg _ (by
          show ¬((f x).id == pid) = true
          rw [hf]; exact hx)
      have h2 : (x :: t).find? (fun p => p.id == pid) =
          t.find? (fun p => p.id == pid) :=
        List.find?_cons_of_neg _ hx
      rw [h1, h2]
      exact ih

theorem process_comment_stream_count (db : Db) (stream : List RawCommentModel)
    (postId : Nat) :
    commentCountFor (process_comment_stream db stream postId) postId =
      commentCountFor db postId + stream.length := by
  unfold process_comment_stream
  split
  · next h =>
    rw [List.isEmpty_iff] at h
    simp [h]
  · unfold commentCountFor
    dsimp only
    rw [List.filter_append, List.length_append]
    congr 1
    rw [List.filter_eq_self.mpr, List.length_map, List.enum_length]
    intro a ha
    obtain ⟨ic, hic, rfl⟩ := List.mem_map.mp ha
    simp [mkCommentRow]

theorem commentCountFor_congr {x y : Db} (postId : Nat)
    (h : x.comments = y.comments) :
    commentCountFor x postId = commentCountFor y postId := by
  unfold commentCountFor
  rw [h]

theorem fetchAndStore_count (db : Db) (postId : Nat) (lastKnown : Option Nat)
    (remote : List RawCommentModel) (now : Nat) :
    commentCountFor (fetchAndStore db postId lastKnown remote now) postId =
      commentCountFor db postId +
        (get_comments_for_post remote lastKnown).length := by
  rw [commentCountFor_congr postId
    (show (fetchAndStore db postId lastKnown remote now).comments =
       (process_comment_stream db (get_comments_for_post remote lastKnown)
         postId).comments from rfl)]
  exact process_comment_stream_count db _ postId

theorem fetchAndStore_posts (db : Db) (postId : Nat) (lastKnown : Option Nat)
    (remote : List RawCommentModel) (now : Nat) :
    (fetchAndStore db postId lastKnown remote now).posts =
      db.posts.map fun p =>
        if p.id == postId then
          { p with comments_last_collected_at := some now,
                   last_comment_telegram_id :=
                     if hwmShouldUpdate
                          (latestInStream lastKnown
                            (get_comments_for_post remote lastKnown)) lastKnown
                     then latestInStream lastKnown
                            (get_comments_for_post remote lastKnown)
                     else p.last_comment_telegram_id }
        else p := by
  have hposts : (process_comment_stream db
      (get_comments_for_post remote lastKnown) postId).posts = db.posts := by
    unfold process_comment_stream
    split <;> rfl
  show (process_comment_stream db (get_comments_for_post remote lastKnown)
        postId).posts.map _ = _
  rw [hposts]

theorem fetchAndStore_channels (db : Db) (postId : Nat) (lastKnown : Option Nat)
    (remote : List RawCommentModel) (now : Nat) :
    (fetchAndStore db postId lastKnown remote now).channels = db.channels := by
  have : (process_comment_stream db (get_comments_for_post remote lastKnown)
      postId).channels = db.channels := by
    unfold process_comment_stream
    split <;> rfl
  exact this

theorem collect_none (db : Db) (postId : Nat) (remote : List RawCommentModel)
    (rescan : Bool) (now : Nat) (h : findPost db postId = none) :
    task_collect_comments_for_post db postId remote rescan now = db := by
  unfold task_collect_comments_for_post
  rw [h]

theorem collect_noch (db : Db) (postId : Nat) (remote : List RawCommentModel)
    (rescan : Bool) (now : Nat) (p : PostRow)
    (hp : findPost db postId = some p) (hch : postChannel db p = none) :
    task_collect_comments_for_post db postId remote rescan now = db := by
  unfold task_collect_comments_for_post
  rw [hp]
  dsimp only
  rw [hch]

theorem collect_run_eq (db : Db) (postId : Nat) (remote : List RawCommentModel)
    (now : Nat) (p : PostRow) (ch : ChannelRow)
    (hp : findPost db postId = some p) (hch : postChannel db p = some ch) :
    task_collect_comments_for_post db postId remote false now =
      fetchAndStore db postId p.last_comment_telegram_id remote now := by
  unfold task_collect_comments_for_post
  rw [hp]
  dsimp only
  rw [hch]
  dsimp only
  rw [if_neg Bool.false_ne_true, hp]
  rfl

theorem collect_run_hwm (db : Db) (postId : Nat) (remote : List RawCommentModel)
    (now : Nat) (p : PostRow) (ch : ChannelRow)
    (hp : findPost db postId = some p) (hch : postChannel db p = some ch) :
    hwmOf (task_collect_comments_for_post db postId remote false now) postId =
      runHwm p.last_comment_telegram_id remote := by
  rw [collect_run_eq db postId remote now p ch hp hch]
  unfold hwmOf findPost
  rw [fetchAndStore_posts,
      find?_map_idpres _ _ _ (fun q => by split <;> rfl)]
  have hfp : db.posts.find? (fun q => q.id == postId) = some p := hp
  rw [hfp]
  have hpid : (p.id == postId) = true := by
    have h := List.find?_some hfp
    simpa using h
  show (if (p.id == postId) = true then _ else p).last_comment_telegram_id = _
  rw [if_pos hpid]
  rfl

theorem collect_run_post_after (db : Db) (postId : Nat)
    (remote : List RawCommentModel) (now : Nat) (p : PostRow) (ch : ChannelRow)
    (hp : findPost db postId = some p) (hch : postChannel db p = some ch) :
    ∃ p1, findPost (task_collect_comments_for_post db postId remote false now)
        postId = some p1 ∧
      p1.channel_id = p.channel_id ∧
      p1.last_comment_telegram_id = runHwm p.last_comment_telegram_id remote := by
  rw [collect_run_eq db postId remote now p ch hp hch]
  unfold findPost
  rw [fetchAndStore_posts,
      find?_map_idpres _ _ _ (fun q => by split <;> rfl)]
  have hfp : db.posts.find? (fun q => q.id == postId) = some p := hp
  rw [hfp]
  simp only [Option.map_some']
  have hpid : (p.id == postId) = true := by
    have h := List.find?_some hfp
    simpa using h
  rw [if_pos hpid]
  exact ⟨_, rfl, rfl, rfl⟩

theorem collect_run_channels (db : Db) (postId : Nat)
    (remote : List RawCommentModel) (rescan : Bool) (now : Nat) :
    (task_collect_comments_for_post db postId remote rescan now).channels =
      db.channels := by
  unfold task_collect_comments_for_post
  cases findPost db postId with
  | none => rfl
  | some p =>
    dsimp only
    cases postChannel db p with
    | none => rfl
    | some ch =>
      dsimp only
      rw [fetchAndStore_channels]
      cases rescan <;> rfl

theorem collect_run_count (db : Db) (postId : Nat)
    (remote : List RawCommentModel) (now : Nat) (p : PostRow) (ch : ChannelRow)
    (hp : findPost db postId = some p) (hch : postChannel db p = some ch) :
    commentCountFor (task_collect_comments_for_post db postId remote false now)
        postId =
      commentCountFor db postId +
        (get_comments_for_post remote p.last_comment_telegram_id).length := by
  rw [collect_run_eq db postId remote now p ch hp hch, fetchAndStore_count]

/-- C4: for every completed comment-collection run without the
full-rescan flag, the post's high-water mark never regresses, and a
second run immediately after a completed run, with no new remote
comments, inserts zero new comment rows (remote ids are the provider's
positive message ids). -/
theorem comment_hwm_monotonic_and_idempotent (db : Db) (postId : Nat)
    (remote : List RawCommentModel) (now1 now2 : Nat)
    (hpos : ∀ c ∈ remote, 1 ≤ c.telegram_id) :
    hwmLe (hwmOf db postId)
      (hwmOf (task_collect_comments_for_post db postId remote false now1)
        postId) = true
  ∧ commentCountFor
      (task_collect_comments_for_post
        (task_collect_comments_for_post db postId remote false now1)
        postId remote false now2) postId =
    commentCountFor (task_collect_comments_for_post db postId remote false now1)
      postId := by
  cases hp : findPost db postId with
  | none =>
    rw [collect_none db postId remote false now1 hp]
    rw [collect_none db postId remote false now2 hp]
    exact ⟨hwmLe_refl _, rfl⟩
  | some p =>
    cases hch : postChannel db p with
    | none =>
      rw [collect_noch db postId remote false now1 p hp hch]
      rw [collect_noch db postId remote false now2 p hp hch]
      exact ⟨hwmLe_refl _, rfl⟩
    | some ch =>
      constructor
      · rw [collect_run_hwm db postId remote now1 p ch hp hch]
        have hdb : hwmOf db postId = p.last_comment_telegram_id := by
          unfold hwmOf
          rw [hp]
          rfl
        rw [hdb]
        exact runHwm_mono _ remote
      · obtain ⟨p1, hp1, hch1, hhwm1⟩ :=
          collect_run_post_after db postId remote now1 p ch hp hch
        have hch1' : postChannel
            (task_collect_comments_for_post db postId remote false now1) p1 =
            some ch := by
          unfold postChannel
          rw [collect_run_channels, hch1]
          exact hch
        rw [collect_run_count _ postId remote now2 p1 ch hp1 hch1']
        rw [hhwm1, second_fetch_empty _ remote hpos]
        rfl

/-- Witness for `comment_hwm_monotonic_and_idempotent`: the concrete
one-post database with a two-comment provider backlog. -/
theorem comment_hwm_monotonic_and_idempotent_witness :
    hwmLe (hwmOf dbWithArtifact 1)
      (hwmOf (task_collect_comments_for_post dbWithArtifact 1
        [ { telegram_id := 11, text := some "c1", created_at := 12,
            reactions := none, author_details := none,
            reply_to_comment_id := none } ] false 70) 1) = true :=
  (comment_hwm_monotonic_and_idempotent dbWithArtifact 1
    [ { telegram_id := 11, text := some "c1", created_at := 12,
        reactions := none, author_details := none,
        reply_to_comment_id := none } ] 70 71 (by decide)).1

theorem rescanReset_count (db : Db) (postId : Nat) :
    commentCountFor (rescanReset db postId) postId = 0 := by
  unfold rescanReset commentCountFor
  dsimp only
  rw [List.length_eq_zero, List.filter_eq_nil_iff]
  intro c hc
  have h := (List.mem_filter.mp hc).2
  simp only [Bool.not_eq_true'] at h
  simp [h]

theorem rescanReset_hwm (db : Db) (postId : Nat) (p : PostRow)
    (hp : findPost db postId = some p) :
    hwmOf (rescanReset db postId) postId = none := by
  unfold hwmOf findPost rescanReset
  dsimp only
  rw [find?_map_idpres _ _ _ (fun q => by split <;> rfl)]
  have hfp : db.posts.find? (fun q => q.id == postId) = some p := hp
  rw [hfp]
  simp only [Option.map_some']
  have hpid : (p.id == postId) = true := by
    have h := List.find?_some hfp
    simpa using h
  rw [if_pos hpid]
  rfl

theorem rescanReset_findPost (db : Db) (postId : Nat) (p : PostRow)
    (hp : findPost db postId = some p) :
    findPost (rescanReset db postId) postId =
      some { p with last_comment_telegram_id := none } := by
  unfold findPost rescanReset
  dsimp only
  rw [find?_map_idpres _ _ _ (fun q => by split <;> rfl)]
  have hfp : db.posts.find? (fun q => q.id == postId) = some p := hp
  rw [hfp]
  simp only [Option.map_some']
  have hpid : (p.id == postId) = true := by
    have h := List.find?_some hfp
    simpa using h
  rw [if_pos hpid]

theorem collect_rescan_eq (db : Db) (postId : Nat)
    (remote : List RawCommentModel) (now : Nat) (p : PostRow) (ch : ChannelRow)
    (hp : findPost db postId = some p) (hch : postChannel db p = some ch) :
    task_collect_comments_for_post db postId remote true now =
      fetchAndStore (rescanReset db postId) postId none remote now := by
  unfold task_collect_comments_for_post
  rw [hp]
  dsimp only
  rw [hch]
  dsimp only
  rw [if_pos rfl]
  rw [show (findPost (rescanReset db postId) postId).bind
        PostRow.last_comment_telegram_id = none from rescanReset_hwm db postId p hp]

/-- C5: with the full-rescan flag, the deletion of the post's comments
and the reset of its high-water mark form their own committed transaction
that precedes all fetching: the committed reset state has zero comments
and a null mark for the post (so a crash between reset and fetch leaves
exactly this consistent state, never a partial reset), the whole rescan
run is definitionally the fetch-and-store phase applied to that reset
state, and re-running the unit from the crash state stores exactly the
full freshly-fetched backlog. -/
theorem rescan_reset_consistent (db : Db) (postId : Nat)
    (remote : List RawCommentModel) (now now' : Nat) (p : PostRow)
    (ch : ChannelRow)
    (hp : findPost db postId = some p) (hch : postChannel db p = some ch) :
    commentCountFor (rescanReset db postId) postId = 0
  ∧ hwmOf (rescanReset db postId) postId = none
  ∧ task_collect_comments_for_post db postId remote true now =
      fetchAndStore (rescanReset db postId) postId none remote now
  ∧ commentCountFor
      (task_collect_comments_for_post (rescanReset db postId) postId remote
        true now') postId = remote.length := by
  refine ⟨rescanReset_count db postId, rescanReset_hwm db postId p hp,
    collect_rescan_eq db postId remote now p ch hp hch, ?_⟩
  have hp' := rescanReset_findPost db postId p hp
  have hch' : postChannel (rescanReset db postId)
      { p with last_comment_telegram_id := none } = some ch := by
    unfold postChannel rescanReset
    dsimp only
    exact hch
  rw [collect_rescan_eq (rescanReset db postId) postId remote now' _ ch hp' hch']
  rw [fetchAndStore_count, rescanReset_count, Nat.zero_add]
  rfl

/-- Witness for `rescan_reset_consistent`: the concrete one-post database;
after the rescan reset the post has zero comments and a null mark. -/
theorem rescan_reset_consistent_witness :
    commentCountFor (rescanReset dbWithArtifact 1) 1 = 0 ∧
    hwmOf (rescanReset dbWithArtifact 1) 1 = none := by
  have h := rescan_reset_consistent dbWithArtifact 1
    [ { telegram_id := 11, text := some "c1", created_at := 12,
        reactions := none, author_details := none,
        reply_to_comment_id := none } ] 70 71 (newPostRow 1 1 rawPostSample)
    { id := 1, telegram_id := 777, name := some "chan", title := "Chan",
      collection_is_active := true } (by decide) (by decide)
  exact ⟨h.1, h.2.1⟩
